import Mathlib

/-!
Verification of the CAA durable-execution snippets against their design
specification.  The Python modules under `src/` are shallowly embedded below:
pydantic models become structures, the redis client becomes an explicit
key/value store with expiry threaded through the calls, exceptions become
`Except`, and `asyncio.wait_for` becomes an outcome function on a declared
call behaviour.  Definitions come first, then the theorems about them.
-/

set_option maxHeartbeats 1000000

namespace CAA

/-! ## Data model

`Plan`, `ExecutionResult` and `Context` are imported in
`src/state/redis_state.py` from `some.model`, a module that is not part of the
source tree, so their shape is taken from the specification (section 3). -/

/-- Modelled from the spec: `PlanStep` — immutable record with `index`, `tool`,
opaque `parameters` and `requires_approval`.  The type lives in `some.model`,
which is absent from the source tree. -/
structure PlanStep where
  index : Nat
  tool : String
  parameters : List (String × String)
  requires_approval : Bool
  deriving DecidableEq, Repr

/-- Modelled from the spec: a `Plan` is an ordered sequence of `PlanStep`,
fixed at creation (`some.model` is absent from the source tree). -/
structure Plan where
  steps : List PlanStep
  deriving DecidableEq, Repr

/-- Step status of an `ExecutionResult` (spec section 3). -/
inductive StepStatus where
  | success
  | failure
  deriving DecidableEq, Repr

/-- Modelled from the spec: `ExecutionResult` — immutable record of one
executed step, with `step_index`, `status`, optional `failure_reason` and
optional `output` (`some.model` is absent from the source tree). -/
structure ExecutionResult where
  step_index : Nat
  status : StepStatus
  failure_reason : Option String
  output : Option String
  deriving DecidableEq, Repr

/-- `UserContext` from `src/context/schema.py`: pydantic model carrying the
user's query and metadata; `industry` is guarded by a field validator.
`metadata` defaults to the empty dict and `schema_version` to `"1.2.0"`. -/
structure UserContext where
  user_id : String
  industry : String
  query : String
  metadata : List (String × String) := []
  schema_version : String := "1.2.0"
  deriving DecidableEq, Repr

/-- `validate_industry` from `src/context/schema.py`: pydantic field validator
that raises `ValueError` unless the industry string starts with `"NAICS"`. -/
def validate_industry (v : String) : Except String String :=
  if v.startsWith "NAICS" then Except.ok v
  else Except.error "Industry must be a valid NAICS code"

/-- Pydantic construction of a `UserContext`: the `industry` field validator
runs during construction; the model is produced only when it succeeds. -/
def UserContext.construct (user_id industry query : String)
    (metadata : List (String × String)) (schema_version : String) :
    Except String UserContext :=
  match validate_industry industry with
  | Except.error e => Except.error e
  | Except.ok v => Except.ok ⟨user_id, v, query, metadata, schema_version⟩

/-- `AgentState` from `src/state/redis_state.py`: the checkpointed run
snapshot (`current_step` is a Python `int`, hence `Int`). -/
structure AgentState where
  agent_id : String
  conversation_id : String
  current_step : Int
  plan : Plan
  executed_steps : List ExecutionResult
  context_snapshot : UserContext
  deriving DecidableEq, Repr

/-- The consistency invariant of the spec (section 8): `current_step` equals
the length of the executed-step history, and the `i`-th history entry carries
`step_index = i`. -/
def AgentState.consistent (s : AgentState) : Prop :=
  s.current_step = (s.executed_steps.length : Int) ∧
  ∀ i, (h : i < s.executed_steps.length) →
    (s.executed_steps.get ⟨i, h⟩).step_index = i

instance (s : AgentState) : Decidable s.consistent := by
  unfold AgentState.consistent
  infer_instance

/-! ## Redis model

`StateManager` talks to redis through three commands: `SET`, `EXPIRE` and
`GET`.  The store is modelled as an association list from keys to a value and
an optional absolute expiry instant; wall-clock time is threaded explicitly.
Values are the checkpointed `AgentState` itself: the pydantic
`model_dump_json` / `model_validate_json` round-trip performed by the source is
the identity on states, so the serialised bytes are not re-modelled. -/

structure RedisStore where
  entries : List (String × AgentState × Option Nat)
  deriving DecidableEq, Repr

/-- Redis `SET key value`: stores the value and clears any expiry on the key
(plain `SET` persists the key). -/
def RedisStore.set (r : RedisStore) (k : String) (v : AgentState) : RedisStore :=
  ⟨(k, v, none) :: r.entries.filter (fun e => !(e.1 == k))⟩

/-- Redis `EXPIRE key ttl` at time `now`: the key, if present, expires at
`now + ttl`; a missing key is left alone. -/
def RedisStore.expire (r : RedisStore) (k : String) (ttl now : Nat) : RedisStore :=
  ⟨r.entries.map (fun e => if e.1 == k then (e.1, e.2.1, some (now + ttl)) else e)⟩

/-- Redis `GET key` at time `now`: an expired key behaves exactly like an
absent one (redis deletes lazily, so the bytes may still be present). -/
def RedisStore.get (r : RedisStore) (k : String) (now : Nat) : Option AgentState :=
  match r.entries.lookup k with
  | none => none
  | some (v, none) => some v
  | some (v, some ex) => if now < ex then some v else none

/-- The key is present but its expiry has passed, or the key is absent:
exactly the situations in which redis reports no data for the key. -/
def RedisStore.gone (r : RedisStore) (k : String) (now : Nat) : Bool :=
  match r.entries.lookup k with
  | none => true
  | some (_, none) => false
  | some (_, some ex) => ex ≤ now

/-! ## StateManager (`src/state/redis_state.py`) -/

/-- The redis key used by `StateManager`: `f"agent:\x7bagent_id\x7d:state"`. -/
def stateKey (agent_id : String) : String := "agent:" ++ agent_id ++ ":state"

/-- `StateManager.save_checkpoint`: `SET` the serialised state under the
agent's key, then `EXPIRE` it with a 24h TTL (86400 seconds). -/
def save_checkpoint (r : RedisStore) (now : Nat) (state : AgentState) : RedisStore :=
  (r.set (stateKey state.agent_id) state).expire (stateKey state.agent_id) 86400 now

/-- `StateManager.load_checkpoint`: `GET` the agent's key; missing data yields
`None`, otherwise the state is re-validated from JSON. -/
def load_checkpoint (r : RedisStore) (now : Nat) (agent_id : String) :
    Option AgentState :=
  r.get (stateKey agent_id) now

/-- `StateManager.resume_from_step`: load the checkpoint, override
`current_step` on the in-memory object and return it.  The body issues only
the read command `GET` (through `load_checkpoint`), so the store is threaded
through and returned alongside the result. -/
def resume_from_step (r : RedisStore) (now : Nat) (agent_id : String)
    (step : Int) : Option AgentState × RedisStore :=
  match load_checkpoint r now agent_id with
  | none => (none, r)
  | some state => (some { state with current_step := step }, r)

/-! ## Tool executor (`src/execution/tools.py`)

Exceptions are identified by their message (`str(e)`); a fallible Python call
becomes `Except String`.  The awaited tool coroutine is described by a
declared behaviour: it completes after some duration with a value or a raised
exception, or it never completes; `asyncio.wait_for` turns that behaviour and
the contract's timeout into an observed outcome. -/

/-- Behaviour of one awaited `tool.call(...)` coroutine. -/
inductive CallBehavior where
  | completes (duration : Nat) (result : Except String String)
  | hangs
  deriving Repr

/-- Outcome of `asyncio.wait_for(coro, timeout)`: the value, the exception the
coroutine raised, or `asyncio.TimeoutError` after the deadline. -/
inductive WaitOutcome where
  | value (out : String)
  | raised (e : String)
  | timedOut
  deriving DecidableEq, Repr

/-- `asyncio.wait_for`: a coroutine that does not complete within `timeout`
seconds is cancelled and `TimeoutError` is raised at the call site. -/
def waitFor (timeout : Nat) (b : CallBehavior) : WaitOutcome :=
  match b with
  | CallBehavior.hangs => WaitOutcome.timedOut
  | CallBehavior.completes d res =>
    if d ≤ timeout then
      match res with
      | Except.ok v => WaitOutcome.value v
      | Except.error e => WaitOutcome.raised e
    else WaitOutcome.timedOut

/-- The `ToolContract` interface as `CAAToolExecutor.execute` uses it:
`validate` and `validate_output` may raise, and `timeout` is the contract's
declared per-tool timeout.  The mock in the source never raises and declares a
30 second timeout (`ToolContract.mock`). -/
structure ToolContract where
  validate : List (String × String) → Except String (List (String × String))
  validate_output : String → Except String String
  timeout : Nat

/-- The mock `ToolContract` of `tools.py`: both validators are the identity
and never raise; `timeout = 30`. -/
def ToolContract.mock : ToolContract :=
  ⟨Except.ok, Except.ok, 30⟩

/-- `ToolProtocol`: a named tool with an async `call`, whose behaviour on
given parameters is declared up front. -/
structure ToolProtocol where
  name : String
  call : List (String × String) → CallBehavior

/-- Return value of `CAAToolExecutor.execute`: `failure msg` models the dict
the `ExecutionResult.failure` placeholder builds (status `"error"` with the
message), `success` models the structured result dict with the tool name, the
original input, the validated output and a timestamp. -/
inductive ExecResult where
  | failure (msg : String)
  | success (tool : String) (input : List (String × String)) (output : String)
      (timestamp : Nat)
  deriving DecidableEq, Repr

/-- `CAAToolExecutor.execute`: input validation and the awaited call are each
wrapped in `try`/`except` (a validation exception becomes a failure prefixed
with `"Contract violation: "`, `TimeoutError` becomes `"timeout"`, any other
exception from the call becomes a failure carrying `str(e)`); the output
validation on step 3 is _not_ wrapped, so an exception it raises propagates
out of `execute` (the `Except.error` case of the return type). -/
def execute (c : ToolContract) (tool : ToolProtocol)
    (params : List (String × String)) (now : Nat) : Except String ExecResult :=
  match c.validate params with
  | Except.error e => Except.ok (ExecResult.failure ("Contract violation: " ++ e))
  | Except.ok validated_params =>
    match waitFor c.timeout (tool.call validated_params) with
    | WaitOutcome.timedOut => Except.ok (ExecResult.failure "timeout")
    | WaitOutcome.raised e => Except.ok (ExecResult.failure e)
    | WaitOutcome.value result =>
      match c.validate_output result with
      | Except.error e => Except.error e
      | Except.ok validated_result =>
        Except.ok (ExecResult.success tool.name params validated_result now)

/-! ## Approval gate (`src/collaboration/human_collab.py`)

The source's webhook handler `approve_step` only enqueues a `resume_agent`
task on the celery broker; the decision bookkeeping it delegates to lives in
that worker, which is not part of the source tree.  The gate is therefore
modelled from the specification (sections 3 and 4.3). -/

/-- Modelled from the spec: the `decision` field of an `ApprovalRequest`,
one of `pending`, `approved`, `rejected`. -/
inductive Decision where
  | pending
  | approved
  | rejected
  deriving DecidableEq, Repr

/-- A verdict delivered to `resolve` — a human can approve or reject, never
set a request back to `pending`. -/
inductive Verdict where
  | approve
  | reject
  deriving DecidableEq, Repr

/-- The decision an accepted verdict writes into the request. -/
def Verdict.toDecision : Verdict → Decision
  | Verdict.approve => Decision.approved
  | Verdict.reject => Decision.rejected

/-- Modelled from the spec: `ApprovalRequest` with its globally unique `id`,
the owning run and step, the single-assignment `decision` field and the
optional `modifications` payload (the worker holding this record is absent
from the source tree). -/
structure ApprovalRequest where
  id : String
  run_id : String
  step_index : Nat
  decision : Decision
  modifications : Option (List (String × String))
  deriving DecidableEq, Repr

/-- Result of `resolve`: `ok`, `not_found`, or `already_resolved`. -/
inductive ResolveOutcome where
  | ok
  | not_found
  | already_resolved
  deriving DecidableEq, Repr

/-- Modelled from the spec: the gate's store of outstanding requests. -/
structure GateStore where
  requests : List ApprovalRequest
  deriving DecidableEq, Repr

/-- Look up a request by id. -/
def GateStore.find (g : GateStore) (id : String) : Option ApprovalRequest :=
  g.requests.find? (fun r => r.id == id)

/-- Write a decision (and modifications) into the request with the given id. -/
def GateStore.setDecision (g : GateStore) (id : String) (d : Decision)
    (m : Option (List (String × String))) : GateStore :=
  ⟨g.requests.map (fun r =>
    if r.id == id then { r with decision := d, modifications := m } else r)⟩

/-- Modelled from the spec: `resolve(request_id, decision, modifications?)`.
The store accepts the first writer of the `decision` field: a pending request
is decided and `ok` is returned; a request already decided is left untouched
and the caller gets `already_resolved`; an unknown id gets `not_found`. -/
def resolve (g : GateStore) (request_id : String) (v : Verdict)
    (mods : Option (List (String × String))) : ResolveOutcome × GateStore :=
  match g.find request_id with
  | none => (ResolveOutcome.not_found, g)
  | some req =>
    if req.decision = Decision.pending then
      (ResolveOutcome.ok, g.setDecision request_id v.toDecision mods)
    else
      (ResolveOutcome.already_resolved, g)

/-! ## Security layer (`src/security/sec_utils.py`) -/

/-- The PII detector collaborator used by `SecurityLayer`: `redact` on
strings, `redact_dict` on dicts. -/
structure PiiDetector where
  redact : String → String
  redact_dict : List (String × String) → List (String × String)

/-- `SecurityLayer.sanitize_context`: deep-copy the context
(`model_copy(deep=True)`), overwrite `query` and `metadata` on the copy with
their redacted forms, and return the copy.  The original context is only read,
so in this value model the call is a pure record update. -/
def sanitize_context (pii : PiiDetector) (context : UserContext) : UserContext :=
  { context with
      query := pii.redact context.query
      metadata := pii.redact_dict context.metadata }

/-! ## Concrete fixtures used by witnesses and counterexamples -/

/-- A concrete user context. -/
def ctx0 : UserContext := ⟨"u1", "NAICS 5415", "plan my audit", [], "1.2.0"⟩

/-- The result of a successfully executed step 0. -/
def step0Result : ExecutionResult := ⟨0, StepStatus.success, none, some "done"⟩

/-- A consistent checkpointed state of run `"a"`: one executed step,
`current_step = 1`. -/
def chkState : AgentState := ⟨"a", "c", 1, ⟨[]⟩, [step0Result], ctx0⟩

/-- A store holding the checkpoint of run `"a"` with no expiry set. -/
def chkStore : RedisStore := ⟨[(stateKey "a", chkState, none)]⟩

/-- A store whose only checkpoint expired at time 10 but was never deleted. -/
def expiredStore : RedisStore := ⟨[(stateKey "a", chkState, some 10)]⟩

/-- A tool that returns `"out"` immediately. -/
def okTool : ToolProtocol := ⟨"t", fun _ => CallBehavior.completes 0 (Except.ok "out")⟩

/-- A tool that raises `ValueError` immediately. -/
def raisingTool : ToolProtocol :=
  ⟨"t", fun _ => CallBehavior.completes 0 (Except.error "ValueError: boom")⟩

/-- A tool whose call never completes. -/
def hangingTool : ToolProtocol := ⟨"t", fun _ => CallBehavior.hangs⟩

/-- A contract whose output validation raises. -/
def badOutputContract : ToolContract :=
  ⟨Except.ok, fun _ => Except.error "SchemaError: bad output", 30⟩

/-- A contract whose input validation raises. -/
def rejectingContract : ToolContract :=
  ⟨fun _ => Except.error "missing field", Except.ok, 30⟩

/-- A pending approval request for step 2 of run `"run1"`. -/
def pendingRequest : ApprovalRequest := ⟨"r1", "run1", 2, Decision.pending, none⟩

/-- A gate store holding exactly `pendingRequest`. -/
def gate0 : GateStore := ⟨[pendingRequest]⟩

/-! ## Helper lemmas -/

/-- A `SET` followed by an `EXPIRE` on the same key: `GET` sees the value
until the expiry instant and nothing afterwards. -/
theorem get_set_expire (r : RedisStore) (k : String) (v : AgentState)
    (ttl now t : Nat) :
    ((r.set k v).expire k ttl now).get k t =
      if t < now + ttl then some v else none := by
  have h1 : ((r.set k v).expire k ttl now).entries
      = (k, v, some (now + ttl)) ::
        (r.entries.filter (fun e => !(e.1 == k))).map
          (fun e => if e.1 == k then (e.1, e.2.1, some (now + ttl)) else e) := by
    simp [RedisStore.set, RedisStore.expire]
  unfold RedisStore.get
  rw [h1, List.lookup_cons]
  simp

/-- Loading right after a save yields the saved state for the next 86400
seconds and nothing afterwards. -/
theorem load_after_save (r : RedisStore) (now t : Nat) (s : AgentState) :
    load_checkpoint (save_checkpoint r now s) t s.agent_id =
      if t < now + 86400 then some s else none := by
  unfold load_checkpoint save_checkpoint
  exact get_set_expire r (stateKey s.agent_id) s 86400 now t

/-- Helper: updating the first entry matching an id is observed by `find?`
on the updated list. -/
theorem find?_update_by_id (rs : List ApprovalRequest) (id : String)
    (d : Decision) (m : Option (List (String × String))) (req : ApprovalRequest)
    (h : rs.find? (fun r => r.id == id) = some req) :
    (rs.map (fun r =>
        if r.id == id then { r with decision := d, modifications := m } else r)).find?
        (fun r => r.id == id)
      = some { req with decision := d, modifications := m } := by
  induction rs with
  | nil => simp at h
  | cons r rs ih =>
    by_cases hr : (r.id == id) = true
    · simp only [List.find?_cons, hr] at h
      injection h with h
      subst h
      have hid : r.id = id := by simpa using hr
      simp [List.find?_cons, hid]
    · rw [Bool.not_eq_true] at hr
      simp only [List.find?_cons, hr] at h
      simp only [List.map_cons, List.find?_cons, hr, Bool.false_eq_true,
        if_false]
      exact ih h

/-- Writing a decision rewrites exactly the entry `find` returns. -/
theorem GateStore.find_setDecision (g : GateStore) (id : String) (d : Decision)
    (m : Option (List (String × String))) (req : ApprovalRequest)
    (h : g.find id = some req) :
    (g.setDecision id d m).find id
      = some { req with decision := d, modifications := m } := by
  unfold GateStore.find at h
  unfold GateStore.find GateStore.setDecision
  exact find?_update_by_id g.requests id d m req h

/-! ## Claims -/

/-- C1, counterexample: the claim says every operation producing a
checkpointed state — resuming included — preserves the consistency invariant,
but `resume_from_step` overrides `current_step` without touching the history:
resuming the consistent checkpoint of run `"a"` at step 5 yields a state with
`current_step = 5` and a one-entry history. -/
theorem resume_from_step_breaks_invariant :
    chkState.consistent ∧
    (resume_from_step chkStore 0 "a" 5).1
      = some { chkState with current_step := 5 } ∧
    ¬ AgentState.consistent { chkState with current_step := 5 } := by
  refine ⟨by decide, rfl, by decide⟩

/-- C1, amended: saving a consistent state yields only consistent loads, and
`resume_from_step` on a consistent checkpoint returns a consistent state
exactly when the requested step equals the length of the checkpoint's
executed-step history. -/
theorem checkpoint_ops_consistency (r : RedisStore) (now t : Nat)
    (s s₀ : AgentState) (id : String) (step : Int)
    (hs : s.consistent) (h₀ : load_checkpoint r now id = some s₀)
    (hc : s₀.consistent) :
    (∀ u, load_checkpoint (save_checkpoint r now s) t s.agent_id = some u →
      u.consistent) ∧
    (resume_from_step r now id step).1 = some { s₀ with current_step := step } ∧
    (AgentState.consistent { s₀ with current_step := step } ↔
      step = (s₀.executed_steps.length : Int)) := by
  refine ⟨?_, ?_, ?_⟩
  · intro u hu
    rw [load_after_save] at hu
    by_cases hlt : t < now + 86400
    · rw [if_pos hlt] at hu
      injection hu with hu
      subst hu
      exact hs
    · rw [if_neg hlt] at hu
      cases hu
  · unfold resume_from_step
    rw [h₀]
  · unfold AgentState.consistent at hc ⊢
    exact ⟨fun hcon => hcon.1, fun hstep => ⟨hstep, hc.2⟩⟩

/-- C1, witness for the amended theorem at a concrete store and state. -/
theorem checkpoint_ops_consistency_witness :
    (∀ u, load_checkpoint (save_checkpoint chkStore 0 chkState) 3
        chkState.agent_id = some u → u.consistent) ∧
    (resume_from_step chkStore 0 "a" 1).1
      = some { chkState with current_step := 1 } ∧
    (AgentState.consistent { chkState with current_step := 1 } ↔
      (1 : Int) = (chkState.executed_steps.length : Int)) :=
  checkpoint_ops_consistency chkStore 0 3 chkState chkState "a" 1
    (by decide) rfl (by decide)

/-- C2, counterexample: an exception raised by output validation escapes
`execute` untyped, and an exception from the tool call is surfaced with its
raw message rather than a `tool_error` reason. -/
theorem execute_lets_fault_escape :
    execute badOutputContract okTool [] 0
      = Except.error "SchemaError: bad output" ∧
    execute ToolContract.mock raisingTool [] 0
      = Except.ok (ExecResult.failure "ValueError: boom") :=
  ⟨rfl, rfl⟩

/-- C2, amended: exceptions from input validation and from the awaited tool
call are caught and surfaced as failure results (message
`"Contract violation: e"`, `"timeout"`, or the exception's message verbatim);
an exception raised by output validation is not caught and propagates out of
`execute`. -/
theorem execute_exception_typing (c : ToolContract) (tool : ToolProtocol)
    (p : List (String × String)) (now : Nat) :
    (∀ e, c.validate p = Except.error e →
      execute c tool p now
        = Except.ok (ExecResult.failure ("Contract violation: " ++ e))) ∧
    (∀ v, c.validate p = Except.ok v →
      (waitFor c.timeout (tool.call v) = WaitOutcome.timedOut →
        execute c tool p now = Except.ok (ExecResult.failure "timeout")) ∧
      (∀ e, waitFor c.timeout (tool.call v) = WaitOutcome.raised e →
        execute c tool p now = Except.ok (ExecResult.failure e)) ∧
      (∀ out e, waitFor c.timeout (tool.call v) = WaitOutcome.value out →
        c.validate_output out = Except.error e →
        execute c tool p now = Except.error e)) := by
  constructor
  · intro e he
    simp only [execute, he]
  · intro v hv
    refine ⟨?_, ?_, ?_⟩
    · intro ht
      simp only [execute, hv, ht]
    · intro e ht
      simp only [execute, hv, ht]
    · intro out e ht hout
      simp only [execute, hv, ht, hout]

/-- C2, witness for the amended theorem: a failing input validation at a
concrete contract and tool. -/
theorem execute_exception_typing_witness :
    execute rejectingContract okTool [] 0
      = Except.ok (ExecResult.failure ("Contract violation: " ++ "missing field")) :=
  (execute_exception_typing rejectingContract okTool [] 0).1 "missing field" rfl

/-- C3: for any gate store in which the request is still pending, the first
resolve attempt returns `ok` and assigns the decision; a second attempt — with
any verdict, in any order — returns `already_resolved` and leaves the store,
and hence the decision field, unchanged. -/
theorem resolve_first_wins (g : GateStore) (id : String) (req : ApprovalRequest)
    (v₁ v₂ : Verdict) (m₁ m₂ : Option (List (String × String)))
    (hfind : g.find id = some req) (hp : req.decision = Decision.pending) :
    (resolve g id v₁ m₁).1 = ResolveOutcome.ok ∧
    ((resolve g id v₁ m₁).2).find id
      = some { req with decision := v₁.toDecision, modifications := m₁ } ∧
    (resolve (resolve g id v₁ m₁).2 id v₂ m₂).1
      = ResolveOutcome.already_resolved ∧
    (resolve (resolve g id v₁ m₁).2 id v₂ m₂).2 = (resolve g id v₁ m₁).2 := by
  have hnp : v₁.toDecision ≠ Decision.pending := by
    cases v₁ <;> simp [Verdict.toDecision]
  have h1 : resolve g id v₁ m₁
      = (ResolveOutcome.ok, g.setDecision id v₁.toDecision m₁) := by
    unfold resolve
    simp only [hfind]
    rw [if_pos hp]
  have hfind2 : (g.setDecision id v₁.toDecision m₁).find id
      = some { req with decision := v₁.toDecision, modifications := m₁ } :=
    GateStore.find_setDecision g id v₁.toDecision m₁ req hfind
  have h2 : resolve (g.setDecision id v₁.toDecision m₁) id v₂ m₂
      = (ResolveOutcome.already_resolved, g.setDecision id v₁.toDecision m₁) := by
    unfold resolve
    simp only [hfind2]
    rw [if_neg (by exact hnp)]
  rw [h1]
  exact ⟨rfl, hfind2, by rw [h2], by rw [h2]⟩

/-- C3, witness: approve then reject on the concrete pending request. -/
theorem resolve_first_wins_witness :
    (resolve gate0 "r1" Verdict.approve none).1 = ResolveOutcome.ok ∧
    ((resolve gate0 "r1" Verdict.approve none).2).find "r1"
      = some ⟨"r1", "run1", 2, Decision.approved, none⟩ ∧
    (resolve (resolve gate0 "r1" Verdict.approve none).2 "r1"
        Verdict.reject none).1 = ResolveOutcome.already_resolved ∧
    (resolve (resolve gate0 "r1" Verdict.approve none).2 "r1"
        Verdict.reject none).2 = (resolve gate0 "r1" Verdict.approve none).2 :=
  resolve_first_wins gate0 "r1" pendingRequest Verdict.approve Verdict.reject
    none none rfl rfl

/-- C4: a tool invocation that exceeds the timeout declared in the tool's
contract yields a failure result with reason `"timeout"` — the timeout is not
propagated as an exception. -/
theorem timeout_yields_typed_failure (c : ToolContract) (tool : ToolProtocol)
    (p v : List (String × String)) (now : Nat)
    (hv : c.validate p = Except.ok v)
    (hexceeds : ∀ d res, tool.call v = CallBehavior.completes d res →
      c.timeout < d) :
    execute c tool p now = Except.ok (ExecResult.failure "timeout") := by
  have ht : waitFor c.timeout (tool.call v) = WaitOutcome.timedOut := by
    cases hcall : tool.call v with
    | hangs => rfl
    | completes d res =>
      have hd := hexceeds d res hcall
      simp only [waitFor]
      rw [if_neg (by omega)]
  simp only [execute, hv, ht]

/-- C4, witness: the hanging tool under the mock contract. -/
theorem timeout_yields_typed_failure_witness :
    execute ToolContract.mock hangingTool [] 0
      = Except.ok (ExecResult.failure "timeout") :=
  timeout_yields_typed_failure ToolContract.mock hangingTool [] [] 0 rfl
    (fun d res h => by simp [hangingTool] at h)

/-- C5: when the checkpoint of a run id has expired — or none exists — `load`
returns nothing, even if the underlying entry was never deleted. -/
theorem load_expired_not_found (r : RedisStore) (t : Nat) (id : String)
    (h : r.gone (stateKey id) t = true) :
    load_checkpoint r t id = none := by
  unfold RedisStore.gone at h
  unfold load_checkpoint RedisStore.get
  cases hl : r.entries.lookup (stateKey id) with
  | none => rfl
  | some p =>
    rw [hl] at h
    obtain ⟨v, ex⟩ := p
    cases ex with
    | none => simp at h
    | some e =>
      have he : e ≤ t := by simpa using h
      show (if t < e then some v else none) = none
      rw [if_neg (by omega)]

/-- C5, witness: the never-deleted checkpoint that expired at time 10 is
still stored, is reported gone at time 20, and `load` returns nothing. -/
theorem load_expired_not_found_witness :
    (expiredStore.entries.lookup (stateKey "a")).isSome = true ∧
    expiredStore.gone (stateKey "a") 20 = true ∧
    load_checkpoint expiredStore 20 "a" = none :=
  ⟨rfl, rfl, load_expired_not_found expiredStore 20 "a" rfl⟩

/-- C6: saving the identical snapshot twice is idempotent — `load` returns
the same state after the first save and after the second. -/
theorem save_checkpoint_idempotent (r : RedisStore) (n₁ n₂ t₁ t₂ : Nat)
    (s : AgentState) (h₁ : t₁ < n₁ + 86400) (h₂ : t₂ < n₂ + 86400) :
    load_checkpoint (save_checkpoint r n₁ s) t₁ s.agent_id = some s ∧
    load_checkpoint (save_checkpoint (save_checkpoint r n₁ s) n₂ s) t₂
      s.agent_id = some s := by
  constructor
  · rw [load_after_save, if_pos h₁]
  · rw [load_after_save, if_pos h₂]

/-- C6, witness: replaying the checkpoint of run `"a"`. -/
theorem save_checkpoint_idempotent_witness :
    load_checkpoint (save_checkpoint chkStore 5 chkState) 100
      chkState.agent_id = some chkState ∧
    load_checkpoint (save_checkpoint (save_checkpoint chkStore 5 chkState) 6
      chkState) 100 chkState.agent_id = some chkState :=
  save_checkpoint_idempotent chkStore 5 6 100 100 chkState (by decide)
    (by decide)

/-- C7: every save writes the snapshot and resets the run's expiry to the
fixed 24-hour horizon (86400 seconds), whatever the store held before. -/
theorem save_checkpoint_resets_expiry (r : RedisStore) (now t : Nat)
    (s : AgentState) :
    load_checkpoint (save_checkpoint r now s) t s.agent_id
      = if t < now + 86400 then some s else none :=
  load_after_save r now t s

/-- C8: `sanitize_context` replaces exactly `query` and `metadata` with their
redacted forms and leaves every other field equal to the input's; the input
context itself is only read (the source mutates a deep copy), so in this
value model the call is pure. -/
theorem sanitize_context_frame (pii : PiiDetector) (context : UserContext) :
    (sanitize_context pii context).query = pii.redact context.query ∧
    (sanitize_context pii context).metadata = pii.redact_dict context.metadata ∧
    (sanitize_context pii context).user_id = context.user_id ∧
    (sanitize_context pii context).industry = context.industry ∧
    (sanitize_context pii context).schema_version = context.schema_version :=
  ⟨rfl, rfl, rfl, rfl, rfl⟩

/-- C9: `resume_from_step` never writes to the store — the store after the
call is identical to the one before — and the step override exists only on
the returned in-memory state; a missing checkpoint yields nothing. -/
theorem resume_from_step_no_write (r : RedisStore) (now : Nat) (id : String)
    (step : Int) :
    (resume_from_step r now id step).2 = r ∧
    (resume_from_step r now id step).1
      = (load_checkpoint r now id).map
          (fun s => { s with current_step := step }) := by
  unfold resume_from_step
  cases load_checkpoint r now id <;> simp

/-- C10: constructing a `UserContext` succeeds exactly when the industry
string starts with `"NAICS"`; otherwise construction is the validation error
and no model value is produced. -/
theorem userContext_construct_iff (uid ind q : String)
    (md : List (String × String)) (sv : String) :
    UserContext.construct uid ind q md sv
      = (if ind.startsWith "NAICS" then Except.ok ⟨uid, ind, q, md, sv⟩
         else Except.error "Industry must be a valid NAICS code") ∧
    ((∃ u, UserContext.construct uid ind q md sv = Except.ok u) ↔
      ind.startsWith "NAICS" = true) := by
  have hv : UserContext.construct uid ind q md sv
      = (if ind.startsWith "NAICS" then Except.ok ⟨uid, ind, q, md, sv⟩
         else Except.error "Industry must be a valid NAICS code") := by
    unfold UserContext.construct validate_industry
    by_cases hsw : ind.startsWith "NAICS" = true
    · simp [hsw]
    · simp [hsw]
  refine ⟨hv, ?_⟩
  rw [hv]
  by_cases hsw : ind.startsWith "NAICS" = true
  · simp [hsw]
  · simp [hsw]

end CAA
